import Mathlib

/-!
Verification development for the alldebrid link-resolution core.

The Go sources are shallowly embedded below:
* `src/alldebrid/client.go` — API client: `UploadMagnet`, `GetTorrentLinks`,
  `unrestrictLink`, `WaitForDownloadLinks`, and the dynamically-typed
  (`map[string]any`) tree flattener `flattenTreeWithPath`;
* `src/output.go` (types segment) — the statically-typed `TorrentNode`
  flattener `flattenTreeWithPath`;
* `src/unnamed/part_000` — the CLI `run` function's size-filtering step.

Go machine integers (`int64`) are embedded as `Int`; JSON numbers (decoded by
Go as `float64`) are embedded as `ℚ`, which is exact for the integral file
sizes the service sends and for division by the power of two 1048576.
Fallible Go operations (type assertions, which panic) are embedded as
`Option`-valued functions where `none` marks a panic.
-/

namespace AllDebrid

/-- Embeds `Link` from `src/alldebrid/client.go` (fields `Filename`, `URL`,
`Size`, `DownloadURL`; the `DownloadURL` JSON tag is `omitempty`, so the empty
string is the unset state). -/
structure Link where
  filename : String
  url : String
  size : Int
  downloadURL : String
deriving DecidableEq, Repr

/-- Embeds `FileEntry` from `src/alldebrid/client.go` (fields `Link`, `Path`,
`Name`, `Size`). -/
structure FileEntry where
  link : String
  path : String
  name : String
  size : Int
deriving DecidableEq, Repr

/-- Directory descent path computation, shared verbatim by both flatteners:
`if currentPath == "" { dirName } else if dirName != "" { currentPath + "/" +
dirName } else { currentPath }`. -/
def dirChildPath (currentPath dirName : String) : String :=
  if currentPath = "" then dirName
  else if dirName ≠ "" then currentPath ++ "/" ++ dirName
  else currentPath

/-- File path computation, shared verbatim by both flatteners:
`if currentPath == "" { fileName } else { currentPath + "/" + fileName }`. -/
def fileChildPath (currentPath fileName : String) : String :=
  if currentPath = "" then fileName
  else currentPath ++ "/" ++ fileName

/-- Go's `int64(f)` conversion applied to a JSON-decoded number: truncation
toward zero (sizes in range; overflow unmodelled). -/
def goInt64 (q : ℚ) : Int := q.num.tdiv q.den

/-- A decoded JSON value as Go's `encoding/json` produces it for `any`:
`nil`, `bool`, `float64` (here `ℚ`), `string`, `[]any`, `map[string]any`. -/
inductive Json where
  | null
  | bool (b : Bool)
  | num (q : ℚ)
  | str (s : String)
  | arr (items : List Json)
  | obj (fields : List (String × Json))

/-- Key lookup in a decoded JSON object (Go map indexing `v[key]`). -/
def lookupJ : List (String × Json) → String → Option Json
  | [], _ => none
  | (k, v) :: rest, key => if k = key then some v else lookupJ rest key

theorem lookupJ_sizeOf {fs : List (String × Json)} {key : String} {v : Json}
    (h : lookupJ fs key = some v) : sizeOf v < sizeOf fs := by
  induction fs with
  | nil => simp [lookupJ] at h
  | cons kv rest ih =>
    obtain ⟨k, w⟩ := kv
    simp only [lookupJ] at h
    split at h
    · cases h
      simp only [List.cons.sizeOf_spec, Prod.mk.sizeOf_spec]
      omega
    · have := ih h
      simp only [List.cons.sizeOf_spec, Prod.mk.sizeOf_spec]
      omega

/-- Go type assertion `v.(string)`: `none` models the panic. -/
def Json.asGoString : Json → Option String
  | .str s => some s
  | _ => none

/-- Go type assertion `v.(float64)`: `none` models the panic. -/
def Json.asGoNumber : Json → Option ℚ
  | .num q => some q
  | _ => none

mutual

/-- Embeds `flattenTreeWithPath` from `src/alldebrid/client.go` (the
dynamically-typed `map[string]any` walker, lines 646–696 of the concatenated
file). A result of `none` models a Go panic from a failed type assertion. -/
def flattenTreeWithPathD (j : Json) (currentPath : String) :
    Option (List FileEntry) :=
  match j with
  | .arr items => flattenItemsD items currentPath
  | .obj fields =>
    match _he : lookupJ fields "e" with
    | some e =>
      match lookupJ fields "n" with
      | some n =>
        match n.asGoString with
        | some dirName => flattenTreeWithPathD e (dirChildPath currentPath dirName)
        | none => none
      | none => flattenTreeWithPathD e (dirChildPath currentPath "")
    | none =>
      match lookupJ fields "l" with
      | some l =>
        match lookupJ fields "n" with
        | some n =>
          match lookupJ fields "s" with
          | some s =>
            match n.asGoString, l.asGoString, s.asGoNumber with
            | some fileName, some lnk, some q =>
              some [⟨lnk, fileChildPath currentPath fileName, fileName, goInt64 q⟩]
            | _, _, _ => none
          | none => some []
        | none => some []
      | none => some []
  | _ => some []
termination_by sizeOf j
decreasing_by
  all_goals first
    | (simp only [Json.arr.sizeOf_spec]; omega)
    | (simp only [Json.obj.sizeOf_spec]
       have h1 : sizeOf e < sizeOf fields := lookupJ_sizeOf (by assumption)
       omega)

/-- The `[]any` case of the dynamic walker: flatten each item in order and
concatenate; a panic in any item aborts the whole traversal. -/
def flattenItemsD (items : List Json) (currentPath : String) :
    Option (List FileEntry) :=
  match items with
  | [] => some []
  | x :: xs =>
    match flattenTreeWithPathD x currentPath with
    | none => none
    | some a =>
      match flattenItemsD xs currentPath with
      | none => none
      | some b => some (a ++ b)
termination_by sizeOf items
decreasing_by
  all_goals simp only [List.cons.sizeOf_spec]
  all_goals omega

end

/-- Embeds `flattenTree` from `src/alldebrid/client.go` (line 641). -/
def flattenTreeD (data : Json) : Option (List FileEntry) :=
  flattenTreeWithPathD data ""

/-- Embeds `TorrentNode` from the types segment of `src/output.go` (JSON tags
`n`, `l`, `s`, `e`, all `omitempty`). -/
inductive TorrentNode where
  | mk (name : String) (link : String) (size : ℚ) (entries : List TorrentNode)

def TorrentNode.name : TorrentNode → String
  | .mk n _ _ _ => n

def TorrentNode.link : TorrentNode → String
  | .mk _ l _ _ => l

def TorrentNode.size : TorrentNode → ℚ
  | .mk _ _ s _ => s

def TorrentNode.entries : TorrentNode → List TorrentNode
  | .mk _ _ _ e => e

/-- Embeds `TorrentNode.IsFile`: `tn.Link != ""`. -/
def TorrentNode.isFile (t : TorrentNode) : Bool := t.link ≠ ""

/-- Embeds `TorrentNode.IsDirectory`: `len(tn.Entries) > 0`. -/
def TorrentNode.isDirectory (t : TorrentNode) : Bool := t.entries.length > 0

mutual

/-- Embeds `flattenTreeWithPath` from `src/output.go` (the statically-typed
`TorrentNode` walker, lines 191–227 of the concatenated file). -/
def flattenTreeWithPathS (t : TorrentNode) (currentPath : String) :
    List FileEntry :=
  match t with
  | .mk name lnk size entries =>
    if lnk ≠ "" then
      [⟨lnk, fileChildPath currentPath name, name, goInt64 size⟩]
    else if entries.length > 0 then
      flattenEntriesS entries (dirChildPath currentPath name)
    else []
termination_by sizeOf t
decreasing_by
  simp only [TorrentNode.mk.sizeOf_spec]
  omega

/-- The directory loop of the statically-typed walker: flatten every entry in
order with the directory's child path and concatenate. -/
def flattenEntriesS (ns : List TorrentNode) (currentPath : String) :
    List FileEntry :=
  match ns with
  | [] => []
  | x :: xs => flattenTreeWithPathS x currentPath ++ flattenEntriesS xs currentPath
termination_by sizeOf ns
decreasing_by
  all_goals simp only [List.cons.sizeOf_spec]
  all_goals omega

end

/-- Embeds `flattenTree` from `src/output.go` (lines 182–188): flatten every
root with the empty path prefix. -/
def flattenTreeS (nodes : List TorrentNode) : List FileEntry :=
  flattenEntriesS nodes ""

/-- Whether a string field of the decoded JSON object matches the value Go's
`encoding/json` unmarshalling would store in the tagged struct: present and a
string means that string; absent or JSON `null` leaves the zero value `""`. -/
def strField (fields : List (String × Json)) (key : String) (v : String) : Bool :=
  match lookupJ fields key with
  | some (.str s) => s = v
  | some .null => v = ""
  | none => v = ""
  | _ => false

/-- Whether a numeric field of the decoded JSON object matches the value Go's
unmarshalling would store: present and a number means that number; absent or
JSON `null` leaves the zero value `0`. -/
def numField (fields : List (String × Json)) (key : String) (v : ℚ) : Bool :=
  match lookupJ fields key with
  | some (.num q) => q = v
  | some .null => v = 0
  | none => v = 0
  | _ => false

mutual

/-- `corresponds j t` holds when unmarshalling the raw JSON document `j` into
the tagged struct `TorrentNode` (tags `n`, `l`, `s`, `e`) yields `t` — i.e.
the two flatteners are being fed the same tree in their respective input
representations. -/
def corresponds (j : Json) (t : TorrentNode) : Bool :=
  match j, t with
  | .obj fields, .mk name lnk size entries =>
    strField fields "n" name && strField fields "l" lnk &&
    numField fields "s" size &&
    (match _he : lookupJ fields "e" with
     | some (.arr xs) => correspondsList xs entries
     | some .null => entries.isEmpty
     | none => entries.isEmpty
     | _ => false)
  | _, _ => false
termination_by sizeOf j
decreasing_by
  have h1 : sizeOf (Json.arr xs) < sizeOf fields := lookupJ_sizeOf (by assumption)
  simp only [Json.obj.sizeOf_spec, Json.arr.sizeOf_spec] at h1 ⊢
  omega

/-- Pointwise correspondence of a decoded JSON array with a list of tagged
tree nodes. -/
def correspondsList (js : List Json) (ts : List TorrentNode) : Bool :=
  match js, ts with
  | [], [] => true
  | x :: xs, y :: ys => corresponds x y && correspondsList xs ys
  | _, _ => false
termination_by sizeOf js
decreasing_by
  all_goals simp only [List.cons.sizeOf_spec]
  all_goals omega

end

mutual

/-- The class of raw JSON nodes on which the dynamic and the statically-typed
flatteners agree: every object is either a directory node (an `e` key holding
an array of agreeing nodes, an `l` key absent or the empty string, an `n` key
absent or a string), a file node (no `e` key, an `l` key holding a non-empty
string, and `n`/`s` keys holding a string and a number), or a blank node
(neither an `e` nor an `l` key). -/
def wfNode (j : Json) : Bool :=
  match j with
  | .obj fields =>
    match _he : lookupJ fields "e" with
    | some (.arr xs) =>
      (match lookupJ fields "l" with
       | none => true
       | some (.str s) => s = ""
       | _ => false) &&
      (match lookupJ fields "n" with
       | none => true
       | some (.str _) => true
       | _ => false) &&
      wfList xs
    | none =>
      (match lookupJ fields "l" with
       | none => true
       | some (.str lnk) =>
         lnk ≠ "" &&
         (match lookupJ fields "n" with
          | some (.str _) => true
          | _ => false) &&
         (match lookupJ fields "s" with
          | some (.num _) => true
          | _ => false)
       | _ => false)
    | _ => false
  | _ => false
termination_by sizeOf j
decreasing_by
  have h1 : sizeOf (Json.arr xs) < sizeOf fields := lookupJ_sizeOf (by assumption)
  simp only [Json.obj.sizeOf_spec, Json.arr.sizeOf_spec] at h1 ⊢
  omega

/-- `wfNode` lifted to arrays of nodes. -/
def wfList (js : List Json) : Bool :=
  match js with
  | [] => true
  | x :: xs => wfNode x && wfList xs
termination_by sizeOf js
decreasing_by
  all_goals simp only [List.cons.sizeOf_spec]
  all_goals omega

end

/-- Failure of one Alldebrid API call: a transport error, a structured error
envelope from the service, or an unparseable response. -/
inductive ApiFailure where
  | transport (msg : String)
  | service (code msg : String)
  | parse (msg : String)
deriving DecidableEq, Repr

/-- Go `context` termination cause: `context.DeadlineExceeded` or
`context.Canceled` — the two possible values of `ctx.Err()` returned by
`WaitForDownloadLinks` when the polling window closes. -/
inductive CtxErr where
  | deadlineExceeded
  | cancelled
deriving DecidableEq, Repr

/-- Outcome of one `GetTorrentLinks` poll: an error (transport, service or
parse), or the flattened file entries of the job (empty both when the response
lists no magnets and when the file tree flattens to nothing). -/
abbrev PollResult := Except ApiFailure (List FileEntry)

/-- The `Link` that `GetTorrentLinks` builds from one flattened file entry:
`Link{URL: file.Link, Filename: file.Name, Size: file.Size}` — the
`DownloadURL` field is left at its zero value `""`. -/
def fileEntryToLink (fe : FileEntry) : Link :=
  { filename := fe.name, url := fe.link, size := fe.size, downloadURL := "" }

/-- Embeds `unrestrictLink` from `src/alldebrid/client.go` (lines 501–515).
`env` gives the outcome of `UnrestrictURL` for each url: on error the link is
returned unchanged (the error is only logged); on success only `DownloadURL`
is overwritten with the unlocked link's `DownloadURL`. -/
def unrestrictLink (env : String → Except ApiFailure Link) (link : Link) :
    Link :=
  match env link.url with
  | .error _ => link
  | .ok ul => { link with downloadURL := ul.downloadURL }

/-- One file entry of a poll result carried through `GetTorrentLinks`'s link
construction and then through `unrestrictLink`. -/
def resolveEntry (env : String → Except ApiFailure Link) (fe : FileEntry) :
    Link :=
  unrestrictLink env (fileEntryToLink fe)

/-- Whether a poll tick leaves `WaitForDownloadLinks` in its polling loop: a
query error is logged and retried, and an empty link list means the job is
still processing. -/
def continuesPoll : PollResult → Prop
  | .error _ => True
  | .ok entries => entries = []

/-- Embeds the loop of `WaitForDownloadLinks` from `src/alldebrid/client.go`
(lines 518–583). The input list holds the outcomes of the poll ticks that fire
before the context closes; `stop` is the value of `ctx.Err()` once it does.
Returns the call's result together with the number of `GetTorrentLinks`
requests issued. A tick with a query error or an empty link list continues the
loop; the first tick with a non-empty link list unrestricts every link (the
fork-join fan-out, each goroutine writing only its own link) and returns them
with a nil error; if the list is exhausted the context has closed and the call
returns `ctx.Err()` with no links. -/
def waitForDownloadLinks (env : String → Except ApiFailure Link)
    (stop : CtxErr) : List PollResult → Except CtxErr (List Link) × Nat
  | [] => (.error stop, 0)
  | .error _ :: rest =>
    let r := waitForDownloadLinks env stop rest
    (r.1, r.2 + 1)
  | .ok entries :: rest =>
    let links := entries.map fileEntryToLink
    if links.length > 0 then
      (.ok (links.map (unrestrictLink env)), 1)
    else
      let r := waitForDownloadLinks env stop rest
      (r.1, r.2 + 1)

/-- Number of 10-second ticker fires that happen strictly before the deadline
of `context.WithTimeout(ctx, timeout)`: the ticker first fires only after one
full interval, so these are the `k ≥ 1` with `k * intervalMs < timeoutMs` (a
tick landing exactly on the deadline is a race and resolved here toward the
deadline; the claims below only use strict inequalities). -/
def elapsedTicks (intervalMs timeoutMs : Nat) : Nat :=
  (timeoutMs - 1) / intervalMs

/-- `WaitForDownloadLinks` with the real-time structure made explicit: the
poll ticks that can fire before the `timeout` deadline are the 10-second
ticker fires strictly before it, and when they are exhausted `ctx.Err()` is
`context.DeadlineExceeded`. -/
def waitForDownloadLinksTimed (env : String → Except ApiFailure Link)
    (timeoutMs : Nat) (pollSeq : Nat → PollResult) :
    Except CtxErr (List Link) × Nat :=
  waitForDownloadLinks env .deadlineExceeded
    ((List.range (elapsedTicks 10000 timeoutMs)).map pollSeq)

/-- Embeds `Link.SizeMB` from `src/output.go` types segment:
`float64(l.Size) / 1048576` (exact here: division by a power of two). -/
def sizeMB (l : Link) : ℚ := (l.size : ℚ) / 1048576

/-- Embeds the size-filtering step of `run` from `src/unnamed/part_000`
(lines 124–128): when the threshold is positive, keep the links with
`link.SizeMB() >= args.IgnoreFilesSmallerThanMB`; otherwise leave the list
untouched. -/
def runSizeFilter (links : List Link) (minMB : ℚ) : List Link :=
  if minMB > 0 then links.filter (fun l => minMB ≤ sizeMB l) else links

/-- Embeds `MagnetUpload` from the types segment (field `ID`). -/
structure MagnetUpload where
  id : Int
deriving DecidableEq, Repr

/-- Embeds `FileUpload` from the types segment (field `ID`). -/
structure FileUpload where
  id : Int
deriving DecidableEq, Repr

/-- Embeds `UploadResponse` from the types segment. -/
structure UploadResponse where
  files : List FileUpload
  magnets : List MagnetUpload
deriving DecidableEq, Repr

/-- Failure of a job submission: transport error, structured service error
(surfaced by the client's `OnAfterResponse` hook), unparseable response, or an
accepted request that reported zero jobs (`"no magnets uploaded"`). -/
inductive SubmitFailure where
  | transport (msg : String)
  | service (code msg : String)
  | parse (msg : String)
  | emptyResult
deriving DecidableEq, Repr

/-- Embeds `UploadMagnet` from `src/alldebrid/client.go` (lines 426–454). The
argument is the outcome of the POST plus response parsing; on success, a
response with an empty `Magnets` list fails with the empty-result error and
otherwise the first reported magnet's ID is returned. -/
def uploadMagnet (resp : Except SubmitFailure UploadResponse) :
    Except SubmitFailure Int :=
  match resp with
  | .error e => .error e
  | .ok data =>
    match data.magnets with
    | [] => .error .emptyResult
    | m :: _ => .ok m.id

/-- C8: `unrestrictLink` mutates a `Link` only in its `downloadURL` field —
`filename`, `url` and `size` are unchanged whether the unlock succeeds (the
download URL is overwritten with the unlocked one) or fails (the link is
returned untouched). -/
theorem c8_unrestrict_frame (env : String → Except ApiFailure Link) (l : Link)
    (e : ApiFailure) (ul : Link) :
    (unrestrictLink env l).filename = l.filename ∧
    (unrestrictLink env l).url = l.url ∧
    (unrestrictLink env l).size = l.size ∧
    (unrestrictLink (fun _ => .error e) l).downloadURL = l.downloadURL ∧
    (unrestrictLink (fun _ => .ok ul) l).downloadURL = ul.downloadURL := by
  unfold unrestrictLink
  cases env l.url <;> simp

/-- C7: `UploadMagnet` applied to a successfully parsed response envelope
fails with the empty-result error (and returns no job identifier) exactly when
the response lists zero accepted magnets, and otherwise returns the first
listed magnet's ID. -/
theorem c7_upload_magnet_empty_result (data : UploadResponse) :
    (data.magnets = [] →
      uploadMagnet (.ok data) = .error SubmitFailure.emptyResult ∧
      ∀ jid, uploadMagnet (.ok data) ≠ .ok jid) ∧
    (∀ m ms, data.magnets = m :: ms → uploadMagnet (.ok data) = .ok m.id) := by
  refine ⟨fun h => ⟨by simp [uploadMagnet, h], fun jid => by simp [uploadMagnet, h]⟩,
    fun m ms h => by simp [uploadMagnet, h]⟩

/-- Witness for C7: a response with zero magnets fails with the empty-result
error; a response listing magnet IDs 7 and 9 returns 7. -/
theorem c7_witness :
    uploadMagnet (.ok ⟨[], []⟩) = .error SubmitFailure.emptyResult ∧
    uploadMagnet (.ok ⟨[], [⟨7⟩, ⟨9⟩]⟩) = .ok 7 :=
  ⟨((c7_upload_magnet_empty_result ⟨[], []⟩).1 rfl).1,
    (c7_upload_magnet_empty_result ⟨[], [⟨7⟩, ⟨9⟩]⟩).2 ⟨7⟩ [⟨9⟩] rfl⟩

/-- C6: the size-filtering step of `run` keeps, in original order, exactly the
links with `sizeBytes / 1048576 ≥ minMB` when the threshold is positive, and
is the identity when the threshold is non-positive. -/
theorem c6_size_filter (links : List Link) (minMB : ℚ) :
    (0 < minMB →
      runSizeFilter links minMB = links.filter (fun l => minMB ≤ sizeMB l) ∧
      (runSizeFilter links minMB).Sublist links ∧
      ∀ l, l ∈ runSizeFilter links minMB ↔ l ∈ links ∧ minMB ≤ sizeMB l) ∧
    (minMB ≤ 0 → runSizeFilter links minMB = links) := by
  constructor
  · intro h
    have he : runSizeFilter links minMB =
        links.filter (fun l => minMB ≤ sizeMB l) := by
      simp only [runSizeFilter, if_pos h]
    refine ⟨he, ?_, ?_⟩
    · rw [he]
      exact List.filter_sublist links
    · intro l
      rw [he, List.mem_filter]
      simp
  · intro h
    simp only [runSizeFilter, if_neg (not_lt.mpr h)]

/-- Concrete links of 1 MB, 5 MB and 10 MB for the C6 witness. -/
def exLink1 : Link := ⟨"a.bin", "u1", 1048576, ""⟩

def exLink5 : Link := ⟨"b.bin", "u2", 5242880, ""⟩

def exLink10 : Link := ⟨"c.bin", "u3", 10485760, ""⟩

/-- Witness for C6: with threshold 5.0 MB exactly the 5 MB and 10 MB entries
survive, and threshold 0 is the identity. -/
theorem c6_witness :
    runSizeFilter [exLink1, exLink5, exLink10] 5 = [exLink5, exLink10] ∧
    runSizeFilter [exLink1, exLink5, exLink10] 0 =
      [exLink1, exLink5, exLink10] := by
  refine ⟨?_, (c6_size_filter [exLink1, exLink5, exLink10] 0).2 le_rfl⟩
  rw [((c6_size_filter [exLink1, exLink5, exLink10] 5).1 (by norm_num)).1]
  norm_num [exLink1, exLink5, exLink10, sizeMB, List.filter]

/-- C2: if the deadline elapses or cancellation fires while every poll tick so
far has left the loop in its polling state (query errors or empty link lists),
`WaitForDownloadLinks` returns `ctx.Err()` — the typed `DeadlineExceeded` or
`Cancelled` condition — and never any link list. -/
theorem c2_deadline_in_polling (env : String → Except ApiFailure Link)
    (stop : CtxErr) (polls : List PollResult)
    (h : ∀ p ∈ polls, continuesPoll p) :
    (waitForDownloadLinks env stop polls).1 = .error stop ∧
    ∀ links, (waitForDownloadLinks env stop polls).1 ≠ .ok links := by
  have main : (waitForDownloadLinks env stop polls).1 = .error stop := by
    induction polls with
    | nil => rfl
    | cons p rest ih =>
      have hrest : ∀ q ∈ rest, continuesPoll q := fun q hq => h q (by simp [hq])
      cases p with
      | error e => simpa [waitForDownloadLinks] using ih hrest
      | ok entries =>
        have hemp : entries = [] := h (.ok entries) (by simp)
        subst hemp
        simpa [waitForDownloadLinks] using ih hrest
  exact ⟨main, by simp [main]⟩

/-- Witness for C2: two unproductive ticks (a transport error, then an empty
list) followed by the deadline yield `DeadlineExceeded`; the same ticks
followed by cancellation yield `Cancelled`. -/
theorem c2_witness :
    (waitForDownloadLinks (fun _ => .error (.transport "down"))
        CtxErr.deadlineExceeded [.error (.transport "t"), .ok []]).1 =
      .error CtxErr.deadlineExceeded ∧
    (waitForDownloadLinks (fun _ => .error (.transport "down"))
        CtxErr.cancelled [.error (.transport "t"), .ok []]).1 =
      .error CtxErr.cancelled := by
  constructor
  · exact (c2_deadline_in_polling _ _ _ (by
      intro p hp
      fin_cases hp <;> simp [continuesPoll])).1
  · exact (c2_deadline_in_polling _ _ _ (by
      intro p hp
      fin_cases hp <;> simp [continuesPoll])).1

/-- C3: a failed poll query never terminates the loop — prepending a query
error (or an empty success) to the remaining ticks leaves the result that of
the remaining ticks, with one more poll issued — and the only possible exits
are the context error `ctx.Err()` or a non-empty flattened file list found by
some tick. -/
theorem c3_poll_failure_continues (env : String → Except ApiFailure Link)
    (stop : CtxErr) :
    (∀ qe rest, waitForDownloadLinks env stop (.error qe :: rest) =
      ((waitForDownloadLinks env stop rest).1,
        (waitForDownloadLinks env stop rest).2 + 1)) ∧
    (∀ rest, waitForDownloadLinks env stop (.ok [] :: rest) =
      ((waitForDownloadLinks env stop rest).1,
        (waitForDownloadLinks env stop rest).2 + 1)) ∧
    (∀ polls, (waitForDownloadLinks env stop polls).1 = .error stop ∨
      ∃ entries, entries ≠ [] ∧ Except.ok entries ∈ polls ∧
        (waitForDownloadLinks env stop polls).1 =
          .ok (entries.map (resolveEntry env))) := by
  refine ⟨fun qe rest => rfl, fun rest => by simp [waitForDownloadLinks], ?_⟩
  intro polls
  induction polls with
  | nil => exact .inl rfl
  | cons p rest ih =>
    cases p with
    | error e =>
      rcases ih with h1 | ⟨es, h1, h2, h3⟩
      · exact .inl (by simpa [waitForDownloadLinks] using h1)
      · exact .inr ⟨es, h1, by simp [h2], by simpa [waitForDownloadLinks] using h3⟩
    | ok entries =>
      rcases eq_or_ne entries [] with hemp | hne
      · subst hemp
        rcases ih with h1 | ⟨es, h1, h2, h3⟩
        · exact .inl (by simpa [waitForDownloadLinks] using h1)
        · exact .inr ⟨es, h1, by simp [h2],
            by simpa [waitForDownloadLinks] using h3⟩
      · refine .inr ⟨entries, hne, by simp, ?_⟩
        have hlen : 0 < entries.length := List.length_pos.mpr hne
        simp [waitForDownloadLinks, hlen, List.map_map, resolveEntry,
          Function.comp]

/-- C9: the 10-second ticker fires first only after one full interval, so for
any timeout strictly below 10 seconds `WaitForDownloadLinks` returns
`DeadlineExceeded` having issued zero poll requests, whatever the poll
outcomes would have been — even if the files were available at once. -/
theorem c9_no_poll_before_first_tick (env : String → Except ApiFailure Link)
    (timeoutMs : Nat) (pollSeq : Nat → PollResult) (h : timeoutMs < 10000) :
    waitForDownloadLinksTimed env timeoutMs pollSeq =
      (.error CtxErr.deadlineExceeded, 0) := by
  have h0 : elapsedTicks 10000 timeoutMs = 0 := by
    unfold elapsedTicks
    exact Nat.div_eq_of_lt (by omega)
  simp [waitForDownloadLinksTimed, h0, waitForDownloadLinks]

/-- Witness for C9: a 5-second timeout returns `DeadlineExceeded` with zero
polls issued even though the very first poll would have found a file. -/
theorem c9_witness :
    waitForDownloadLinksTimed (fun _ => .error (.transport "down")) 5000
      (fun _ => .ok [⟨"u1", "p1", "f1", 1⟩]) =
      (.error CtxErr.deadlineExceeded, 0) :=
  c9_no_poll_before_first_tick _ 5000 _ (by norm_num)

/-- C1: once a poll flattens to a non-empty list of N files, the call
unrestricts all of them and returns `.ok` with exactly N links — per-file
unlock failures leave that link's `downloadURL` empty while successful ones
populate it (the unlock API's link fields being non-empty), and no failure
aborts the sibling links or the call. -/
theorem c1_partial_unlock_failures (env : String → Except ApiFailure Link)
    (stop : CtxErr) (pre rest : List PollResult) (entries : List FileEntry)
    (hpre : ∀ p ∈ pre, continuesPoll p) (hne : entries ≠ [])
    (hpop : ∀ u ul, env u = .ok ul → ul.downloadURL ≠ "") :
    (waitForDownloadLinks env stop (pre ++ .ok entries :: rest)).1 =
      .ok (entries.map (resolveEntry env)) ∧
    (entries.map (resolveEntry env)).length = entries.length ∧
    ∀ fe ∈ entries,
      ((∃ err, env fe.link = .error err) →
        (resolveEntry env fe).downloadURL = "") ∧
      (∀ ul, env fe.link = .ok ul →
        (resolveEntry env fe).downloadURL = ul.downloadURL ∧
        (resolveEntry env fe).downloadURL ≠ "") := by
  refine ⟨?_, by simp, ?_⟩
  · induction pre with
    | nil =>
      have hlen : 0 < entries.length := List.length_pos.mpr hne
      simp [waitForDownloadLinks, hlen, List.map_map, resolveEntry,
        Function.comp]
    | cons p ps ih =>
      have hps : ∀ q ∈ ps, continuesPoll q := fun q hq => hpre q (by simp [hq])
      have hp := hpre p (by simp)
      cases p with
      | error e => simpa [waitForDownloadLinks] using ih hps
      | ok es =>
        have hemp : es = [] := hp
        subst hemp
        simpa [waitForDownloadLinks] using ih hps
  · intro fe _
    constructor
    · rintro ⟨err, herr⟩
      simp [resolveEntry, unrestrictLink, fileEntryToLink, herr]
    · intro ul hul
      exact ⟨by simp [resolveEntry, unrestrictLink, fileEntryToLink, hul],
        by simpa [resolveEntry, unrestrictLink, fileEntryToLink, hul]
          using hpop _ _ hul⟩

/-- Unlock outcomes for the C1 witness: the url `"u1"` unlocks to `"D1"`,
every other url fails with a transport error. -/
def exEnv : String → Except ApiFailure Link := fun u =>
  if u = "u1" then .ok ⟨"f1", "u1", 10, "D1"⟩
  else .error (.transport "down")

/-- Flattened file entries for the C1 witness: two files, one of which will
fail to unlock. -/
def exEntries : List FileEntry := [⟨"u1", "p1", "f1", 10⟩, ⟨"u2", "p2", "f2", 20⟩]

/-- Witness for C1: after one failed tick, a poll finding two files of which
one fails to unlock still returns both links with `.ok` — lengths match and
the failed one keeps an empty `downloadURL`. -/
theorem c1_witness :
    (waitForDownloadLinks exEnv CtxErr.deadlineExceeded
        ([.error (.transport "t")] ++ .ok exEntries :: [])).1 =
      .ok (exEntries.map (resolveEntry exEnv)) ∧
    (exEntries.map (resolveEntry exEnv)).length = exEntries.length ∧
    ∀ fe ∈ exEntries,
      ((∃ err, exEnv fe.link = .error err) →
        (resolveEntry exEnv fe).downloadURL = "") ∧
      (∀ ul, exEnv fe.link = .ok ul →
        (resolveEntry exEnv fe).downloadURL = ul.downloadURL ∧
        (resolveEntry exEnv fe).downloadURL ≠ "") := by
  refine c1_partial_unlock_failures exEnv CtxErr.deadlineExceeded _ _ _
    (by intro p hp; fin_cases hp; simp [continuesPoll])
    (by simp [exEntries]) ?_
  intro u ul h
  unfold exEnv at h
  split at h
  · cases h
    simp
  · cases h

/-- The child-path rule exactly as the specification words it (modelled from
the spec for comparison with the code): `parentPath + "/" + name` if both are
non-empty, else whichever is non-empty, else empty. -/
def specChildPath (parentPath name : String) : String :=
  if parentPath ≠ "" ∧ name ≠ "" then parentPath ++ "/" ++ name
  else if parentPath ≠ "" then parentPath
  else if name ≠ "" then name
  else ""

/-- A directory node (empty link) always flattens to its entries flattened at
the directory's child path: when the entry list is empty both sides are `[]`. -/
theorem flattenS_dir (name : String) (size : ℚ) (entries : List TorrentNode)
    (p : String) :
    flattenTreeWithPathS (.mk name "" size entries) p =
      flattenEntriesS entries (dirChildPath p name) := by
  cases entries with
  | nil => rw [flattenTreeWithPathS, flattenEntriesS]; simp
  | cons x xs => rw [flattenTreeWithPathS]; simp

/-- Counterexample to C4 as stated: a file with an empty name under directory
`"d"` is emitted with path `"d/"` (a trailing slash), while the claimed rule
(`whichever of the two is non-empty` when the name is empty) yields `"d"`. -/
theorem c4_counterexample :
    (flattenTreeWithPathS (.mk "d" "" 0 [.mk "" "L" 1 []]) "").map
        FileEntry.path = ["d/"] ∧
    flattenTreeWithPathD
        (.obj [("n", .str ""), ("l", .str "L"), ("s", .num 1)]) "d" =
      some [⟨"L", "d/", "", 1⟩] ∧
    specChildPath "d" "" = "d" ∧
    ("d/" : String) ≠ "d" := by
  refine ⟨?_, ?_, by decide, by decide⟩
  · simp [flattenTreeWithPathS, flattenEntriesS, dirChildPath, fileChildPath]
  · rw [flattenTreeWithPathD]
    simp [lookupJ, Json.asGoString, Json.asGoNumber, fileChildPath, goInt64]

/-- C4 (amended): directory descent follows the spec's join rule exactly
(`dirChildPath` coincides with it), but a file's own segment is always
appended as `parentPath ++ "/" ++ name` whenever the parent path is non-empty
— even for an empty file name, which yields a trailing slash. The spec's two
examples hold: `"b.mkv"` under an empty-named directory flattens to path
`"b.mkv"` and `"a.mkv"` under `"movies"` to `"movies/a.mkv"`. -/
theorem c4_path_rule_amended :
    (∀ p n, dirChildPath p n = specChildPath p n) ∧
    (∀ name lnk size entries p, lnk ≠ "" →
      flattenTreeWithPathS (.mk name lnk size entries) p =
        [⟨lnk, if p = "" then name else p ++ "/" ++ name, name, goInt64 size⟩]) ∧
    (∀ name size entries p,
      flattenTreeWithPathS (.mk name "" size entries) p =
        flattenEntriesS entries (specChildPath p name)) ∧
    (flattenTreeWithPathS (.mk "" "" 0 [.mk "b.mkv" "L" 1048576 []]) "").map
        FileEntry.path = ["b.mkv"] ∧
    (flattenTreeWithPathS
        (.mk "movies" "" 0 [.mk "a.mkv" "L" 1048576 []]) "").map
        FileEntry.path = ["movies/a.mkv"] := by
  have hjoin : ∀ p n, dirChildPath p n = specChildPath p n := by
    intro p n
    unfold dirChildPath specChildPath
    by_cases hp : p = "" <;> by_cases hn : n = "" <;> simp [hp, hn]
  have hfile : ∀ (name lnk : String) (size : ℚ) entries p, lnk ≠ "" →
      flattenTreeWithPathS (.mk name lnk size entries) p =
        [⟨lnk, if p = "" then name else p ++ "/" ++ name, name, goInt64 size⟩] := by
    intro name lnk size entries p h
    rw [flattenTreeWithPathS]
    simp [h, fileChildPath]
  refine ⟨hjoin, hfile, fun name size entries p => ?_, ?_, ?_⟩
  · rw [flattenS_dir, hjoin]
  · simp [flattenTreeWithPathS, flattenEntriesS, dirChildPath, fileChildPath]
  · simp [flattenTreeWithPathS, flattenEntriesS, dirChildPath, fileChildPath]

/-- Witness for C4 (amended): the file-segment rule applied where it differs
from the spec's join rule (empty file name under `"d"` gives `"d/"`), and the
directory rule applied at `"movies"`. -/
theorem c4_witness :
    flattenTreeWithPathS (.mk "" "L" 1 []) "d" = [⟨"L", "d/", "", 1⟩] ∧
    flattenTreeWithPathS (.mk "movies" "" 0 [.mk "a.mkv" "L" 1 []]) "" =
      flattenEntriesS [.mk "a.mkv" "L" 1 []] (specChildPath "" "movies") := by
  constructor
  · exact (c4_path_rule_amended.2.1 "" "L" 1 [] "d" (by decide)).trans (by decide)
  · exact c4_path_rule_amended.2.2.1 "movies" 0 [.mk "a.mkv" "L" 1 []] ""

/-- Counterexample to C5's totality parenthetical: a node carrying all of the
`l`, `n`, `s` keys but with a numeric `l` value makes the dynamic walker's
`l.(string)` type assertion panic (modelled as `none`) — flattening is not a
total function on arbitrary node shapes. -/
theorem c5_counterexample :
    flattenTreeWithPathD
      (.obj [("l", .num 5), ("n", .str "x"), ("s", .num 1)]) "" = none := by
  rw [flattenTreeWithPathD]
  simp [lookupJ, Json.asGoString]

/-- C5 (amended): a node with no children key and lacking the full
link/name/size key set (at least one of the `l`, `n`, `s` keys missing) is
silently skipped — it flattens to no records at all and its presence in a
sibling list never changes (in particular never aborts) the flattening of the
rest; totality on arbitrary shapes, however, fails (see the counterexample)
because present-but-mistyped fields panic. -/
theorem c5_malformed_skipped (fields : List (String × Json)) (p : String)
    (xs ys : List Json)
    (hne : lookupJ fields "e" = none)
    (hml : ¬(lookupJ fields "l" ≠ none ∧ lookupJ fields "n" ≠ none ∧
      lookupJ fields "s" ≠ none)) :
    flattenTreeWithPathD (.obj fields) p = some [] ∧
    flattenItemsD (xs ++ .obj fields :: ys) p = flattenItemsD (xs ++ ys) p := by
  have hnode : flattenTreeWithPathD (.obj fields) p = some [] := by
    rw [flattenTreeWithPathD, hne]
    cases hl : lookupJ fields "l" with
    | none => rfl
    | some l =>
      cases hn : lookupJ fields "n" with
      | none => rfl
      | some n =>
        cases hs : lookupJ fields "s" with
        | none => rfl
        | some s =>
          exact absurd ⟨by simp [hl], by simp [hn], by simp [hs]⟩ hml
  refine ⟨hnode, ?_⟩
  induction xs with
  | nil =>
    rw [List.nil_append, List.nil_append, flattenItemsD, hnode]
    cases hys : flattenItemsD ys p <;> simp
  | cons x xs ih =>
    rw [List.cons_append, List.cons_append, flattenItemsD]
    conv_rhs => rw [flattenItemsD]
    cases hx : flattenTreeWithPathD x p with
    | none => rfl
    | some a => rw [ih]

/-- Witness for C5 (amended): a node with its `l` and `s` keys present but no
`n` key, sitting between two well-formed files, is skipped while both siblings
are emitted. -/
theorem c5_witness :
    flattenTreeWithPathD (.obj [("l", .str "L"), ("s", .num 9)]) "" =
      some [] ∧
    flattenItemsD
        [.obj [("n", .str "a"), ("l", .str "A"), ("s", .num 1)],
         .obj [("l", .str "L"), ("s", .num 9)],
         .obj [("n", .str "b"), ("l", .str "B"), ("s", .num 2)]] "" =
      flattenItemsD
        [.obj [("n", .str "a"), ("l", .str "A"), ("s", .num 1)],
         .obj [("n", .str "b"), ("l", .str "B"), ("s", .num 2)]] "" := by
  have h := c5_malformed_skipped [("l", .str "L"), ("s", .num 9)] ""
    [.obj [("n", .str "a"), ("l", .str "A"), ("s", .num 1)]]
    [.obj [("n", .str "b"), ("l", .str "B"), ("s", .num 2)]]
    (by simp [lookupJ]) (by simp [lookupJ])
  exact ⟨h.1, h.2⟩

theorem strField_none {fields : List (String × Json)} {k v : String}
    (h : lookupJ fields k = none) (hs : strField fields k v = true) :
    v = "" := by
  simp [strField, h] at hs
  exact hs

theorem strField_str {fields : List (String × Json)} {k v s : String}
    (h : lookupJ fields k = some (.str s)) (hs : strField fields k v = true) :
    v = s := by
  simp [strField, h] at hs
  exact hs.symm

theorem numField_num {fields : List (String × Json)} {k : String} {v q : ℚ}
    (h : lookupJ fields k = some (.num q)) (hs : numField fields k v = true) :
    v = q := by
  simp [numField, h] at hs
  exact hs.symm

theorem corresponds_fields {fields : List (String × Json)} {name lnk : String}
    {size : ℚ} {entries : List TorrentNode}
    (hc : corresponds (.obj fields) (.mk name lnk size entries) = true) :
    strField fields "n" name = true ∧ strField fields "l" lnk = true ∧
      numField fields "s" size = true := by
  simp only [corresponds, Bool.and_eq_true] at hc
  exact ⟨hc.1.1.1, hc.1.1.2, hc.1.2⟩

theorem corresponds_entries_arr {fields : List (String × Json)} {xs : List Json}
    {name lnk : String} {size : ℚ} {entries : List TorrentNode}
    (he : lookupJ fields "e" = some (.arr xs))
    (hc : corresponds (.obj fields) (.mk name lnk size entries) = true) :
    correspondsList xs entries = true := by
  simp only [corresponds, Bool.and_eq_true] at hc
  obtain ⟨-, hm⟩ := hc
  split at hm
  · rename_i xs2 heq
    rw [he] at heq
    cases heq
    exact hm
  all_goals rename_i heq
  any_goals rw [he] at heq
  any_goals cases heq
  · exact absurd hm (by simp)

theorem corresponds_entries_none {fields : List (String × Json)}
    {name lnk : String} {size : ℚ} {entries : List TorrentNode}
    (he : lookupJ fields "e" = none)
    (hc : corresponds (.obj fields) (.mk name lnk size entries) = true) :
    entries = [] := by
  simp only [corresponds, Bool.and_eq_true] at hc
  obtain ⟨-, hm⟩ := hc
  split at hm
  all_goals rename_i heq
  any_goals rw [he] at heq
  any_goals cases heq
  · exact List.isEmpty_iff.mp hm
  · exact absurd hm (by simp)

theorem wfNode_e_arr {fields : List (String × Json)} {e : Json}
    (hw : wfNode (.obj fields) = true) (he : lookupJ fields "e" = some e) :
    ∃ xs, e = .arr xs := by
  simp only [wfNode] at hw
  split at hw
  · rename_i xs heq
    rw [he] at heq
    cases heq
    exact ⟨xs, rfl⟩
  all_goals rename_i heq
  any_goals rw [he] at heq
  any_goals cases heq
  · exact absurd hw (by simp)

theorem wfNode_dir_facts {fields : List (String × Json)} {xs : List Json}
    (hw : wfNode (.obj fields) = true)
    (he : lookupJ fields "e" = some (.arr xs)) :
    (lookupJ fields "l" = none ∨ lookupJ fields "l" = some (.str "")) ∧
    (lookupJ fields "n" = none ∨ ∃ nm, lookupJ fields "n" = some (.str nm)) ∧
    wfList xs = true := by
  simp only [wfNode] at hw
  split at hw
  on_goal 1 =>
    rename_i xs2 heq
    rw [he] at heq
    cases heq
    simp only [Bool.and_eq_true] at hw
    obtain ⟨⟨hA, hB⟩, hC⟩ := hw
    refine ⟨?_, ?_, hC⟩
    · split at hA
      · rename_i hl
        exact .inl hl
      · rename_i s hl
        rw [of_decide_eq_true hA] at hl
        exact .inr hl
      · exact absurd hA (by simp)
    · split at hB
      · rename_i hn
        exact .inl hn
      · rename_i nm hn
        exact .inr ⟨nm, hn⟩
      · exact absurd hB (by simp)
  all_goals rename_i heq
  all_goals first
    | (rw [he] at heq; cases heq)
    | simp at hw

theorem wfNode_file_facts {fields : List (String × Json)}
    (hw : wfNode (.obj fields) = true) (he : lookupJ fields "e" = none) :
    lookupJ fields "l" = none ∨
    ∃ lnk nm q, lookupJ fields "l" = some (.str lnk) ∧ lnk ≠ "" ∧
      lookupJ fields "n" = some (.str nm) ∧
      lookupJ fields "s" = some (.num q) := by
  simp only [wfNode] at hw
  split at hw
  on_goal 2 =>
    split at hw
    · rename_i hl
      exact .inl hl
    on_goal 1 =>
      rename_i lnk hl
      simp only [Bool.and_eq_true] at hw
      obtain ⟨⟨h1, h2⟩, h3⟩ := hw
      refine .inr ⟨lnk, ?_⟩
      split at h2
      on_goal 1 =>
        rename_i nm hn
        split at h3
        on_goal 1 =>
          rename_i q hs
          exact ⟨nm, q, hl, by simpa using h1, hn, hs⟩
        · exact absurd h3 (by simp)
      · exact absurd h2 (by simp)
    · exact absurd hw (by simp)
  all_goals rename_i heq
  all_goals first
    | (rw [he] at heq; cases heq)
    | simp at hw

theorem flattenD_dir_named {fields : List (String × Json)} {e n : Json}
    {dn : String} (p : String) (he : lookupJ fields "e" = some e)
    (hn : lookupJ fields "n" = some n) (hns : n.asGoString = some dn) :
    flattenTreeWithPathD (.obj fields) p =
      flattenTreeWithPathD e (dirChildPath p dn) := by
  rw [flattenTreeWithPathD]
  split
  · rename_i e2 heq
    rw [he] at heq
    cases heq
    rw [hn]
    simp only [hns]
  · rename_i heq
    rw [he] at heq
    cases heq

theorem flattenD_dir_unnamed {fields : List (String × Json)} {e : Json}
    (p : String) (he : lookupJ fields "e" = some e)
    (hn : lookupJ fields "n" = none) :
    flattenTreeWithPathD (.obj fields) p =
      flattenTreeWithPathD e (dirChildPath p "") := by
  rw [flattenTreeWithPathD]
  split
  · rename_i e2 heq
    rw [he] at heq
    cases heq
    rw [hn]
  · rename_i heq
    rw [he] at heq
    cases heq

theorem flattenD_no_link {fields : List (String × Json)} (p : String)
    (he : lookupJ fields "e" = none) (hl : lookupJ fields "l" = none) :
    flattenTreeWithPathD (.obj fields) p = some [] := by
  rw [flattenTreeWithPathD]
  split
  · rename_i e2 heq
    rw [he] at heq
    cases heq
  · rw [hl]

theorem flattenD_file {fields : List (String × Json)} {lnk nm : String} {q : ℚ}
    (p : String) (he : lookupJ fields "e" = none)
    (hl : lookupJ fields "l" = some (.str lnk))
    (hn : lookupJ fields "n" = some (.str nm))
    (hs : lookupJ fields "s" = some (.num q)) :
    flattenTreeWithPathD (.obj fields) p =
      some [⟨lnk, fileChildPath p nm, nm, goInt64 q⟩] := by
  rw [flattenTreeWithPathD]
  split
  · rename_i e2 heq
    rw [he] at heq
    cases heq
  · rw [hl, hn, hs]
    simp [Json.asGoString, Json.asGoNumber]

theorem flattenD_arr (xs : List Json) (p : String) :
    flattenTreeWithPathD (.arr xs) p = flattenItemsD xs p := by
  rw [flattenTreeWithPathD]

theorem flattenAgreeAux (fuel : Nat) :
    (∀ (j : Json) (t : TorrentNode) (p : String), sizeOf j ≤ fuel →
      corresponds j t = true → wfNode j = true →
      flattenTreeWithPathD j p = some (flattenTreeWithPathS t p)) ∧
    (∀ (js : List Json) (ts : List TorrentNode) (p : String),
      sizeOf js ≤ fuel → correspondsList js ts = true → wfList js = true →
      flattenItemsD js p = some (flattenEntriesS ts p)) := by
  induction fuel using Nat.strong_induction_on with
  | _ fuel ih =>
    constructor
    · intro j t p hsz hc hw
      cases t with
      | mk name lnk size entries =>
        cases j with
        | obj fields =>
          obtain ⟨hn, hl, hs⟩ := corresponds_fields hc
          cases He : lookupJ fields "e" with
          | some e =>
            obtain ⟨xs, rfl⟩ := wfNode_e_arr hw He
            obtain ⟨hwl, hwn, hwxs⟩ := wfNode_dir_facts hw He
            have hcxs := corresponds_entries_arr He hc
            have hlnk : lnk = "" := by
              rcases hwl with h1 | h1
              · exact strField_none h1 hl
              · exact strField_str h1 hl
            subst hlnk
            have hxs : sizeOf xs < fuel := by
              have h1 := lookupJ_sizeOf He
              simp only [Json.obj.sizeOf_spec, Json.arr.sizeOf_spec] at h1 hsz
              omega
            have hstep : flattenTreeWithPathD (.obj fields) p =
                flattenItemsD xs (dirChildPath p name) := by
              rcases hwn with h1 | ⟨nm, h1⟩
              · have : name = "" := strField_none h1 hn
                subst this
                rw [flattenD_dir_unnamed p He h1, flattenD_arr]
              · have : name = nm := strField_str h1 hn
                subst this
                rw [flattenD_dir_named p He h1 rfl, flattenD_arr]
            rw [hstep, flattenS_dir]
            exact (ih (sizeOf xs) hxs).2 xs entries (dirChildPath p name)
              le_rfl hcxs hwxs
          | none =>
            have hent : entries = [] := corresponds_entries_none He hc
            subst hent
            rcases wfNode_file_facts hw He with h1 | ⟨lnk2, nm, q, h1, h2, h3, h4⟩
            · have hlnk : lnk = "" := strField_none h1 hl
              subst hlnk
              rw [flattenD_no_link p He h1, flattenS_dir, flattenEntriesS]
            · have hlnk : lnk = lnk2 := strField_str h1 hl
              have hname : name = nm := strField_str h3 hn
              have hsize : size = q := numField_num h4 hs
              subst hlnk hname hsize
              rw [flattenD_file p He h1 h3 h4, flattenTreeWithPathS]
              simp [h2]
        | null => simp [corresponds] at hc
        | bool b => simp [corresponds] at hc
        | num q => simp [corresponds] at hc
        | str s => simp [corresponds] at hc
        | arr items => simp [corresponds] at hc
    · intro js ts p hsz hc hw
      cases js with
      | nil =>
        cases ts with
        | nil => rw [flattenItemsD, flattenEntriesS]
        | cons y ys => simp [correspondsList] at hc
      | cons x xs =>
        cases ts with
        | nil => simp [correspondsList] at hc
        | cons y ys =>
          simp only [correspondsList, Bool.and_eq_true] at hc
          simp only [wfList, Bool.and_eq_true] at hw
          have hx : sizeOf x < fuel := by
            simp only [List.cons.sizeOf_spec] at hsz
            omega
          have hxs : sizeOf xs < fuel := by
            simp only [List.cons.sizeOf_spec] at hsz
            omega
          rw [flattenItemsD,
            (ih (sizeOf x) hx).1 x y p le_rfl hc.1 hw.1,
            (ih (sizeOf xs) hxs).2 xs ys p le_rfl hc.2 hw.2,
            flattenEntriesS]

/-- On corresponding, well-formed trees the dynamically-typed walker computes
(without panicking) exactly what the statically-typed walker computes. -/
theorem flattenAgreeList (js : List Json) (ts : List TorrentNode) (p : String)
    (hc : correspondsList js ts = true) (hw : wfList js = true) :
    flattenItemsD js p = some (flattenEntriesS ts p) :=
  (flattenAgreeAux (sizeOf js)).2 js ts p le_rfl hc hw

/-- Counterexample to C10 as stated: a node carrying both a link and a
(present, empty) children field is a directory to the dynamic walker (the `e`
key is checked first, so it emits nothing) but a file to the statically-typed
walker (`IsFile` is checked first, so it emits one record) — the two
flatteners disagree on the same tree. -/
theorem c10_counterexample :
    corresponds
        (.obj [("n", .str "x"), ("l", .str "L"), ("s", .num 5), ("e", .arr [])])
        (.mk "x" "L" 5 []) = true ∧
    flattenTreeD
        (.arr [.obj [("n", .str "x"), ("l", .str "L"), ("s", .num 5),
          ("e", .arr [])]]) = some [] ∧
    flattenTreeS [.mk "x" "L" 5 []] = [⟨"L", "x", "x", 5⟩] ∧
    flattenTreeD
        (.arr [.obj [("n", .str "x"), ("l", .str "L"), ("s", .num 5),
          ("e", .arr [])]]) ≠ some (flattenTreeS [.mk "x" "L" 5 []]) := by
  refine ⟨?_, ?_, ?_, ?_⟩
  · simp [corresponds, correspondsList, strField, numField, lookupJ]
  · simp [flattenTreeD, flattenTreeWithPathD, flattenItemsD, lookupJ,
      Json.asGoString]
  · simp [flattenTreeS, flattenEntriesS, flattenTreeWithPathS, fileChildPath,
      goInt64]
  · simp [flattenTreeD, flattenTreeWithPathD, flattenItemsD, lookupJ,
      Json.asGoString, flattenTreeS, flattenEntriesS, flattenTreeWithPathS]

/-- C10 (amended): the dynamic and the statically-typed flatteners produce the
same ordered record sequence for every pair of corresponding trees in which
each node is either a pure directory (children key present, link absent or
empty, name absent or a string), a complete file (no children key, non-empty
link and both name and size present), or a blank node (no children and no link
keys) — this covers directories with an empty children list, but not nodes
that carry both a link and a children field (see the counterexample). -/
theorem c10_flatteners_agree_amended (js : List Json) (ts : List TorrentNode)
    (hc : correspondsList js ts = true) (hw : wfList js = true) :
    flattenTreeD (.arr js) = some (flattenTreeS ts) := by
  rw [flattenTreeD, flattenD_arr, flattenTreeS]
  exact flattenAgreeList js ts "" hc hw

/-- Witness for C10 (amended): a tree with a named directory (holding one
file), a root file, a blank node and an empty directory flattens identically
through the dynamic and the statically-typed walkers. -/
theorem c10_witness :
    flattenTreeD
        (.arr [.obj [("n", .str "d"), ("e", .arr
            [.obj [("n", .str "a.mkv"), ("l", .str "LA"), ("s", .num 7)]])],
          .obj [("n", .str "b.mkv"), ("l", .str "LB"), ("s", .num 3)],
          .obj [("n", .str "junk")],
          .obj [("n", .str "emptydir"), ("e", .arr [])]]) =
      some (flattenTreeS
        [.mk "d" "" 0 [.mk "a.mkv" "LA" 7 []],
         .mk "b.mkv" "LB" 3 [],
         .mk "junk" "" 0 [],
         .mk "emptydir" "" 0 []]) := by
  refine c10_flatteners_agree_amended _ _ ?_ ?_
  · simp [correspondsList, corresponds, strField, numField, lookupJ]
  · simp [wfList, wfNode, lookupJ]

end AllDebrid
